import Mathlib

/-!
Verification development for the `fanyi` browser-extension translation
pipeline.  The subject of study is the client-side request-scheduling
subsystem: the text segmenter, batch join/demux, token-bucket rate
limiter, and the retrying dispatchers in `content.js` and
`background.js`.

Strings are modelled as `List Char` (JavaScript `.length` counts UTF-16
code units; all strings appearing here live in the Basic Multilingual
Plane, where the two measures agree).  JavaScript's `\s` character class
is modelled by the standard ASCII whitespace characters, which covers
every character occurring in the source's regexes and in the inputs
considered here.  Millisecond quantities and token counts are modelled
as `ℚ`; every floating-point computation performed by the source on the
values considered here (multiplications by 1.5 of small integers) is
exact in binary floating point, so `ℚ` is a faithful model.
-/

/-- Convert a Lean string literal to the `List Char` representation used
throughout this development. -/
def toChars (s : String) : List Char := s.data

/-- JavaScript `\s` on the characters relevant here (space, tab, newline,
carriage return, form feed, vertical tab). -/
def isWS (c : Char) : Bool :=
  c == ' ' || c == '\t' || c == '\n' || c == '\r' || c == '\x0b' || c == '\x0c'

/-- Sentence-ending punctuation from the regex `[.!?。！？]` in
`splitTextIntoSegments` (content.js line 37). -/
def isSentEnd (c : Char) : Bool :=
  c == '.' || c == '!' || c == '?' || c == '。' || c == '！' || c == '？'

/-- Comma/semicolon punctuation from the regex `[,，;；]` in
`splitTextIntoSegments` (content.js line 51). -/
def isCommaPunct (c : Char) : Bool :=
  c == ',' || c == '，' || c == ';' || c == '；'

/-- `strStarts p s` holds when `s` begins with `p`; models JavaScript
`String.prototype.startsWith`. -/
def strStarts : List Char → List Char → Bool
  | [], _ => true
  | _ :: _, [] => false
  | p :: ps, c :: cs => p == c && strStarts ps cs

/-- `strHas pat s` holds when `pat` occurs as a contiguous substring of
`s`; models JavaScript `String.prototype.includes`. -/
def strHas (pat : List Char) : List Char → Bool
  | [] => strStarts pat []
  | s@(_ :: cs) => strStarts pat s || strHas pat cs

/-- Drop leading whitespace. -/
def trimL : List Char → List Char
  | [] => []
  | c :: cs => if isWS c then trimL cs else c :: cs

/-- JavaScript `String.prototype.trim`: drop whitespace at both ends. -/
def trimStr (s : List Char) : List Char :=
  trimL (List.reverse (trimL (List.reverse s)))

/-- Index of the last `'\n'` in a list, if any. -/
def lastIdxNL : List Char → Option Nat
  | [] => none
  | c :: cs =>
    match lastIdxNL cs with
    | some k => some (k + 1)
    | none => if c == '\n' then some 0 else none

/-- After an initial `'\n'`, try to match the `\s*\n` tail of the
paragraph separator regex `\n\s*\n` (content.js line 30).  The greedy
match with backtracking consumes whitespace up to and including the last
newline inside the maximal whitespace run.  Returns the remainder of the
input after the match, or `none` when no further newline follows. -/
def paraSepTail (rest : List Char) : Option (List Char) :=
  match lastIdxNL (rest.takeWhile isWS) with
  | some k => some (rest.drop (k + 1))
  | none => none

/-- Fuel-driven scanner for `text.split(/\n\s*\n/)`.  The fuel is an
upper bound on the number of characters still to be consumed; each step
consumes at least one character, so fuel `text.length` suffices. -/
def paraGo : Nat → List Char → List Char → List (List Char)
  | _, acc, [] => [acc.reverse]
  | 0, acc, rest => [acc.reverse ++ rest]
  | fuel + 1, acc, c :: rest =>
    if c == '\n' then
      match paraSepTail rest with
      | some rest' => acc.reverse :: paraGo fuel [] rest'
      | none => paraGo fuel ('\n' :: acc) rest
    else paraGo fuel (c :: acc) rest

/-- `text.split(/\n\s*\n/)` from content.js line 30: blank-line paragraph
split. -/
def paras (s : List Char) : List (List Char) :=
  paraGo s.length [] s

/-- Fuel-driven scanner for `paragraph.split(/([.!?。！？]+\s+)/)`
(content.js line 37).  The capture group keeps each separator (a maximal
run of sentence punctuation followed by a maximal nonempty run of
whitespace) as its own list element, exactly as JavaScript `split` with a
capturing group does. -/
def sentGo : Nat → List Char → List Char → List (List Char)
  | _, acc, [] => [acc.reverse]
  | 0, acc, rest => [acc.reverse ++ rest]
  | fuel + 1, acc, c :: rest =>
    if isSentEnd c then
      let ps := (c :: rest).takeWhile isSentEnd
      let ws := ((c :: rest).drop ps.length).takeWhile isWS
      if ws.length == 0 then sentGo fuel (c :: acc) rest
      else acc.reverse :: (ps ++ ws) :: sentGo fuel [] ((c :: rest).drop (ps.length + ws.length))
    else sentGo fuel (c :: acc) rest

/-- `paragraph.split(/([.!?。！？]+\s+)/)`, separators kept. -/
def splitSent (s : List Char) : List (List Char) :=
  sentGo s.length [] s

/-- Fuel-driven scanner for `sentence.split(/([,，;；]+\s*)/)`
(content.js line 51); the whitespace after the punctuation run may be
empty. -/
def commaGo : Nat → List Char → List Char → List (List Char)
  | _, acc, [] => [acc.reverse]
  | 0, acc, rest => [acc.reverse ++ rest]
  | fuel + 1, acc, c :: rest =>
    if isCommaPunct c then
      let ps := (c :: rest).takeWhile isCommaPunct
      let ws := ((c :: rest).drop ps.length).takeWhile isWS
      acc.reverse :: (ps ++ ws) :: commaGo fuel [] ((c :: rest).drop (ps.length + ws.length))
    else commaGo fuel (c :: acc) rest

/-- `sentence.split(/([,，;；]+\s*)/)`, separators kept. -/
def splitComma (s : List Char) : List (List Char) :=
  commaGo s.length [] s

/-- One step of the comma-fallback accumulator loop inside
`splitTextIntoSegments` (content.js lines 52-63).  State is the pair of
segments pushed so far and the current accumulator. -/
def commaStep (maxLen minLen : Nat) (st : List (List Char) × List Char) (part : List Char) :
    List (List Char) × List Char :=
  if st.2.length + part.length ≤ maxLen then (st.1, st.2 ++ part)
  else if minLen ≤ st.2.length then (st.1 ++ [trimStr st.2], part)
  else (st.1, st.2 ++ part)

/-- One step of the sentence accumulator loop inside
`splitTextIntoSegments` (content.js lines 40-66): whitespace-only pieces
are skipped; a piece that fits is appended; otherwise the accumulator is
flushed when it has reached `minLen`, and the comma fallback runs when it
has not. -/
def sentStep (maxLen minLen : Nat) (st : List (List Char) × List Char) (sentence : List Char) :
    List (List Char) × List Char :=
  if trimStr sentence = [] then st
  else if st.2.length + sentence.length ≤ maxLen then (st.1, st.2 ++ sentence)
  else if minLen ≤ st.2.length then (st.1 ++ [trimStr st.2], sentence)
  else (splitComma sentence).foldl (commaStep maxLen minLen) st

/-- Processing of one paragraph by `splitTextIntoSegments` (content.js
lines 32-72): a paragraph within the length cap is pushed verbatim; an
oversized paragraph is re-split at sentence boundaries (with the comma
fallback), and the final accumulator is pushed only when it has reached
`minLen`. -/
def paraStep (maxLen minLen : Nat) (segs : List (List Char)) (p : List Char) :
    List (List Char) :=
  if p.length ≤ maxLen then segs ++ [p]
  else
    let st := (splitSent p).foldl (sentStep maxLen minLen) (segs, [])
    if minLen ≤ st.2.length then st.1 ++ [trimStr st.2] else st.1

/-- `requestLimiter.splitTextIntoSegments` (content.js lines 28-75) with
the two length fields of `requestLimiter` taken as parameters
(`maxSegmentLength`, `minSegmentLength`). -/
def splitSegs (maxLen minLen : Nat) (text : List Char) : List (List Char) :=
  (paras text).foldl (paraStep maxLen minLen) []

/-- `requestLimiter.splitTextIntoSegments` at the configuration hard-wired
in content.js lines 23-24: `maxSegmentLength = 1000`,
`minSegmentLength = 50`. -/
def splitTextIntoSegments (text : List Char) : List (List Char) :=
  splitSegs 1000 50 text

/-- Formalisation of the claim's notion of an indivisible unit: a string
offering no paragraph, sentence, or comma/semicolon split point, i.e. on
which each of the three splitters of `splitTextIntoSegments` returns a
single piece. -/
def segIndivisible (s : List Char) : Bool :=
  (paras s).length == 1 && (splitSent s).length == 1 && (splitComma s).length == 1

/-! ## Token bucket (background.js lines 4-30) -/

/-- State of `TokenBucket` (background.js lines 4-10).  `lastFill` is the
timestamp of the last refill; elapsed wall-clock time between calls is an
explicit parameter of the model, so `lastFill` only accumulates it. -/
structure TB where
  capacity : ℚ
  tokens : ℚ
  fillPerSecond : ℚ
  lastFill : ℚ
deriving DecidableEq

/-- The lazy refill at the top of `getToken` (background.js lines 13-19):
`tokens = min(capacity, tokens + timePassed * fillPerSecond)`, with
`timePassed` in seconds. -/
def refill (s : TB) (e : ℚ) : TB :=
  { s with tokens := min s.capacity (s.tokens + e * s.fillPerSecond),
           lastFill := s.lastFill + e }

/-- The wait computed at background.js line 22 when fewer than one token
is available, in milliseconds: `(1 - tokens) / fillPerSecond * 1000`. -/
def waitMs (s : TB) : ℚ :=
  (1 - s.tokens) / s.fillPerSecond * 1000

/-- `TokenBucket.getToken` (background.js lines 12-29).  The list gives
the elapsed seconds observed at each recursive invocation (the code
recurses after sleeping whenever fewer than one token is available).  A
completed call returns the final state with one token consumed; `none`
means the modelled time steps were exhausted before a token was
obtained. -/
def getTokenSteps : TB → List ℚ → Option TB
  | _, [] => none
  | s, e :: es =>
    let s' := refill s e
    if s'.tokens < 1 then getTokenSteps s' es
    else some { s' with tokens := s'.tokens - 1 }

/-- A single `getToken` invocation with no elapsed time and no waiting:
the immediate acquisition attempt. -/
def tryOnce (s : TB) : Option TB :=
  getTokenSteps s [0]

/-- `n` back-to-back immediate `getToken` calls. -/
def acquireN (s : TB) : Nat → Option TB
  | 0 => some s
  | n + 1 => (acquireN s n).bind tryOnce

/-- A sequence of completed `getToken` calls; each inner list gives the
elapsed times seen by the recursive rounds of that call. -/
def runAcquires : TB → List (List ℚ) → Option TB
  | s, [] => some s
  | s, es :: rest =>
    match getTokenSteps s es with
    | some s' => runAcquires s' rest
    | none => none

/-! ## The batch dispatcher `requestLimiter.translateBatch`
(content.js lines 211-259) -/

/-- Decidable equality of `Except` values, needed for evaluating the
dispatcher outcomes on concrete inputs. -/
instance {ε α : Type} [DecidableEq ε] [DecidableEq α] : DecidableEq (Except ε α) := fun x y =>
  match x, y with
  | Except.ok a, Except.ok b =>
    if h : a = b then isTrue (by rw [h]) else isFalse (fun hh => h (Except.ok.inj hh))
  | Except.error a, Except.error b =>
    if h : a = b then isTrue (by rw [h]) else isFalse (fun hh => h (Except.error.inj hh))
  | Except.ok _, Except.error _ => isFalse (fun hh => Except.noConfusion hh)
  | Except.error _, Except.ok _ => isFalse (fun hh => Except.noConfusion hh)

/-- The in-band failure marker checked by
`response.translatedText.startsWith('翻译请求失败')` at content.js
line 231. -/
def failMark : List Char := toChars "翻译请求失败"

/-- The substring whose presence makes an error non-retryable at
content.js lines 233 and 245. -/
def apiKeyMark : List Char := toChars "API Key"

/-- The error thrown at content.js line 240 when the response is missing
or has no `translatedText`. -/
def invalidRespMsg : List Char := toChars "Invalid translation response"

/-- The error thrown at content.js line 255 once retries are
exhausted. -/
def exhaustMsg : List Char := toChars "翻译请求失败: 多次尝试后仍未成功，请稍后重试"

/-- `requestLimiter.maxRetries` (content.js line 18). -/
def maxRetriesC : Nat := 3

/-- `requestLimiter.retryDelay` in milliseconds (content.js line 19). -/
def retryDelayC : ℚ := 2000

/-- `requestLimiter.maxBackoff` in milliseconds (content.js line 20). -/
def maxBackoffC : ℚ := 30000

/-- The body of one `translateBatch` attempt (content.js lines 230-240):
a missing response or missing/empty `translatedText` raises
`invalidRespMsg`; a `translatedText` starting with the failure marker is
thrown as an error with that text as its message; otherwise the text is
returned. -/
def attemptResult (r : Option (List Char)) : Except (List Char) (List Char) :=
  match r with
  | none => Except.error invalidRespMsg
  | some t =>
    if t = [] then Except.error invalidRespMsg
    else if strStarts failMark t = true then Except.error t
    else Except.ok t

/-- Outcome of a `translateBatch` call: the resolved text or the thrown
error message, the number of attempts made, and the milliseconds slept
before each retry, in order. -/
structure BatchOutcome where
  res : Except (List Char) (List Char)
  attempts : Nat
  delays : List ℚ
deriving DecidableEq

/-- The retry loop of `translateBatch` (content.js lines 215-258).
`stub` gives the response of the k-th attempt; `fuel` counts the loop
iterations still permitted by `retryCount <= maxRetries`; `delay` is the
current backoff; `att` counts attempts made so far and `ds` records the
sleeps performed so far (most recent first).  On a failure whose message
contains `apiKeyMark` the error propagates at once; otherwise the loop
sleeps `delay`, updates `delay = min(delay * 1.5, maxBackoff)` and
retries until the iterations are exhausted, at which point `exhaustMsg`
is thrown. -/
def tbGo (stub : Nat → Option (List Char)) : Nat → ℚ → Nat → List ℚ → BatchOutcome
  | 0, _, att, ds => ⟨Except.error exhaustMsg, att, ds.reverse⟩
  | fuel + 1, delay, att, ds =>
    match attemptResult (stub att) with
    | Except.ok t => ⟨Except.ok t, att + 1, ds.reverse⟩
    | Except.error m =>
      if strHas apiKeyMark m = true then ⟨Except.error m, att + 1, ds.reverse⟩
      else if fuel = 0 then ⟨Except.error exhaustMsg, att + 1, ds.reverse⟩
      else tbGo stub fuel (min (delay * (3 / 2)) maxBackoffC) (att + 1) (delay :: ds)

/-- `requestLimiter.translateBatch` run against a response stub, with the
configuration of content.js lines 18-20. -/
def translateBatchRun (stub : Nat → Option (List Char)) : BatchOutcome :=
  tbGo stub (maxRetriesC + 1) retryDelayC 0 []

/-! ## Background request manager (background.js lines 33-90) -/

/-- A JavaScript error as inspected by the background retry logic: an
optional numeric `code` property and a `message`. -/
structure BgError where
  code : Option Nat
  msg : List Char
deriving DecidableEq

/-- `RequestManager.shouldRetry` (background.js lines 88-90). -/
def shouldRetry (e : BgError) : Bool :=
  e.code == some 429 || e.code == some 503 || strHas (toChars "network") e.msg

/-- `RequestManager.retryDelays` (background.js line 36), in
milliseconds. -/
def retryDelaysB : List ℚ := [3000, 6000, 12000, 24000]

/-- Result of one `executeRequest` invocation: the resolved value or
thrown error, the attempt counter after the call, and the backoff sleeps
performed. -/
structure ExecOutcome where
  res : Except BgError (List Char)
  nextAtt : Nat
  waits : List ℚ
deriving DecidableEq

/-- `RequestManager.executeRequest` (background.js lines 74-86) against a
client stub: the k-th dispatch attempt overall receives `stub k`.  The
remaining entries of `retryDelays` play the role of
`retryCount < this.retryDelays.length`. -/
def execGo (stub : Nat → Except BgError (List Char)) :
    List ℚ → Nat → ExecOutcome
  | [], att =>
    match stub att with
    | Except.ok t => ⟨Except.ok t, att + 1, []⟩
    | Except.error e => ⟨Except.error e, att + 1, []⟩
  | d :: ds', att =>
    match stub att with
    | Except.ok t => ⟨Except.ok t, att + 1, []⟩
    | Except.error e =>
      if shouldRetry e = true then
        let o := execGo stub ds' (att + 1)
        ⟨o.res, o.nextAtt, d :: o.waits⟩
      else ⟨Except.error e, att + 1, []⟩

/-- One `executeRequest` call as issued by `processQueue`
(background.js line 57), starting at `retryCount = 0`. -/
def executeRequestRun (stub : Nat → Except BgError (List Char)) (att : Nat) : ExecOutcome :=
  execGo stub retryDelaysB att

/-- One iteration of the `processQueue` drain loop (background.js lines
52-69) over a queue of request identifiers: the head request is executed;
on success or on a non-429 error it is removed from the queue (resolved
or rejected); on an error with `code === 429` the loop sleeps and
`continue`s with the queue unchanged, so the same head is dispatched
again. -/
def drainIter (stub : Nat → Except BgError (List Char)) :
    List Nat × Nat → List Nat × Nat
  | ([], att) => ([], att)
  | (r :: q, att) =>
    let o := executeRequestRun stub att
    match o.res with
    | Except.ok _ => (q, o.nextAtt)
    | Except.error e => if e.code == some 429 then (r :: q, o.nextAtt) else (q, o.nextAtt)

/-- `n` iterations of the `processQueue` drain loop. -/
def drainN (stub : Nat → Except BgError (List Char)) : Nat → List Nat × Nat → List Nat × Nat
  | 0, st => st
  | n + 1, st => drainIter stub (drainN stub n st)

/-- A client that always fails with an HTTP 429 "rate limited" error. -/
def stub429 : Nat → Except BgError (List Char) :=
  fun _ => Except.error ⟨some 429, toChars "rate limited"⟩

/-! ## `RequestManager.makeRequest` (background.js lines 92-155) -/

/-- The fields of the parsed response body that `makeRequest` inspects:
`data.error?.message` and
`data.candidates[0]?.content?.parts?.[0]?.text`. -/
structure ApiBody where
  errMsg : Option (List Char)
  candText : Option (List Char)

/-- Outcome of the `fetch`/`response.json()` pair: either an exception
(network failure or malformed body) or a response with its `ok` flag and
parsed body. -/
inductive FetchRes where
  | thrown (msg : List Char)
  | resp (ok : Bool) (body : ApiBody)

/-- The `try` block of `makeRequest` (background.js lines 100-150): a
thrown fetch/json error propagates; a non-ok response throws
`data.error?.message` (or `'API request failed'`); a missing or empty
candidate text throws `'Invalid API response format'`; otherwise the
candidate text is returned. -/
def makeRequestTry (fo : FetchRes) : Except (List Char) (List Char) :=
  match fo with
  | FetchRes.thrown m => Except.error m
  | FetchRes.resp ok body =>
    if ok = false then Except.error (body.errMsg.getD (toChars "API request failed"))
    else
      match body.candText with
      | some t => if t = [] then Except.error (toChars "Invalid API response format") else Except.ok t
      | none => Except.error (toChars "Invalid API response format")

/-- The failure prefix `'翻译请求失败: '` used when `makeRequest` encodes
an error in-band (background.js lines 97 and 153). -/
def failMarkColon : List Char := toChars "翻译请求失败: "

/-- `RequestManager.makeRequest` (background.js lines 92-155): a missing
API key short-circuits to a fixed in-band failure; otherwise the `try`
block runs and any error it raises is caught and returned in-band as
`'翻译请求失败: ' + error.message`.  The returned value is the
`translatedText` field of the always-success-shaped response. -/
def makeRequest (apiKey : List Char) (fo : FetchRes) : List Char :=
  if apiKey = [] then toChars "翻译请求失败: 请先在插件设置中配置有效的 API Key"
  else
    match makeRequestTry fo with
    | Except.ok t => t
    | Except.error m => failMarkColon ++ m

/-! ## Batch join and result demultiplexing
(content.js lines 173, 198-199 and 490-518) -/

/-- `batch.texts.join('\n')` (content.js line 173). -/
def joinNL : List (List Char) → List Char
  | [] => []
  | [s] => s
  | s :: r :: rest => s ++ '\n' :: joinNL (r :: rest)

/-- `translations.split('\n')` (content.js line 498). -/
def splitNL : List Char → List (List Char)
  | [] => [[]]
  | c :: cs =>
    if c = '\n' then [] :: splitNL cs
    else
      match splitNL cs with
      | r :: rs => (c :: r) :: rs
      | [] => [[c]]

/-- The assignment loop of `translateNodes` (content.js lines 501-510)
over the nodes' text contents: a node whose trimmed text is empty is
skipped; otherwise, when `translationArray[translationIndex]` is a
non-empty string it replaces the node's text and the index advances, and
when it is missing or empty the node keeps its original text and the
index stays put.  Returns the final text content of each node. -/
def assignGo (arr : List (List Char)) : List (List Char) → Nat → List (List Char)
  | [], _ => []
  | t :: ts, idx =>
    if trimStr t = [] then t :: assignGo arr ts idx
    else
      match arr.get? idx with
      | some tr => if tr = [] then t :: assignGo arr ts idx else tr :: assignGo arr ts (idx + 1)
      | none => t :: assignGo arr ts idx

/-- `translateNodes` result assignment applied to the outputs of a
successful single-batch translation: the per-unit outputs are joined with
`'\n'` by the simulated client, split on `'\n'` by `translateNodes`, and
assigned index-by-index. -/
def demuxRoundTrip (ts os : List (List Char)) : List (List Char) :=
  assignGo (splitNL (joinNL os)) ts 0

/-- Modelled from the spec's retryable classification: HTTP 429, HTTP
503, a transport/network error signature, or a provider-specific
resource-exhausted message (the signature the code itself matches at
content.js line 177). -/
def specRetryableClass (code : Option Nat) (msg : List Char) : Bool :=
  code == some 429 || code == some 503 || strHas (toChars "network") msg ||
    strHas (toChars "Resource has been exhausted") msg

/-! ## Concrete inputs used by the counterexamples and witnesses -/

/-- A 17-character single paragraph whose second sentence exceeds a
`maxLen` of 10 and contains comma split points. -/
def c2Text : List Char := toChars "Hi. a,a,a,a,a,a,a"

/-- The oversized yet comma-divisible segment that
`splitSegs 10 2 c2Text` returns. -/
def c2Seg : List Char := toChars "a,a,a,a,a,a,a"

/-- A two-paragraph input whose paragraphs are within the length cap. -/
def c2WText : List Char := toChars "ab\n\ncd"

/-- A 1001-character paragraph (over the hard-wired
`maxSegmentLength = 1000`) whose final sentence `"hi"` joins a
2-character accumulator that never reaches `minSegmentLength = 50`. -/
def c3Text : List Char := List.replicate 997 'X' ++ toChars ". hi"

/-- The single segment `splitTextIntoSegments` returns for `c3Text`: the
trailing `" hi"` (and the separator) has been dropped. -/
def c3Seg : List Char := List.replicate 997 'X' ++ ['.']

/-- A retryable in-band failure message (no `'API Key'` substring). -/
def c1Msg : List Char := toChars "翻译请求失败: rate limited"

/-- An in-band failure resembling an HTTP 503 report. -/
def c6Msg : List Char := toChars "翻译请求失败: 503 unavailable"

/-- The in-band missing-credential failure produced by the background
listener (background.js line 352); it contains `'API Key'`. -/
def c7Msg : List Char := toChars "翻译请求失败: 缺少 API Key"

/-- The in-band encoding of the malformed-response error
`'Invalid API response format'` (background.js lines 150 and 153). -/
def c7MalMsg : List Char := toChars "翻译请求失败: Invalid API response format"

/-- Two units with distinct non-empty texts. -/
def c9Ts : List (List Char) := [toChars "ab", toChars "cd"]

/-- Outputs for `c9Ts` whose second line is empty. -/
def c9OsBad : List (List Char) := [toChars "x", []]

/-- Non-empty newline-free outputs for `c9Ts`. -/
def c9OsGood : List (List Char) := [toChars "x", toChars "y"]

/-! ## Theorems -/

/-- Helper: when every paragraph fits within `maxLen`, the paragraph fold
of `splitTextIntoSegments` appends each paragraph verbatim. -/
theorem foldl_paraStep_small (maxLen minLen : Nat) :
    ∀ (l acc : List (List Char)), (∀ p ∈ l, p.length ≤ maxLen) →
      l.foldl (paraStep maxLen minLen) acc = acc ++ l := by
  intro l
  induction l with
  | nil => intro acc _; simp
  | cons p l ih =>
    intro acc h
    have hp : p.length ≤ maxLen := h p (List.mem_cons_self p l)
    have hrest : ∀ q ∈ l, q.length ≤ maxLen := fun q hq => h q (List.mem_cons_of_mem p hq)
    simp only [List.foldl_cons, paraStep, if_pos hp]
    rw [ih (acc ++ [p]) hrest]
    simp

/-- C2 counterexample: the claim "every segment returned by the text
segmenter has length ≤ maxLen, except when the segment is a single
indivisible unit" is false as stated.  On the input `c2Text` with
`maxLen = 10`, `minLen = 2`, the segmenter returns the segment
`"a,a,a,a,a,a,a"` of length 13 > 10 even though that segment offers
comma split points (it is not indivisible): the comma fallback of
`splitTextIntoSegments` only runs while the accumulator is shorter than
`minLen`, so an oversized single sentence is adopted as the accumulator
and later emitted whole. -/
theorem c2_segment_bound_counterexample :
    splitSegs 10 2 c2Text = [toChars "Hi.", c2Seg] ∧ 10 < c2Seg.length ∧
    segIndivisible c2Seg = false := by decide

/-- C2 (amended): every segment returned by `splitTextIntoSegments` has
length ≤ maxLen provided every blank-line paragraph of the input has
length ≤ maxLen; only the re-splitting of an oversized paragraph can
produce an oversized segment, and such a segment need not be an
indivisible unit. -/
theorem c2_segment_bound_amended (maxLen minLen : Nat) (text : List Char)
    (h : ∀ p ∈ paras text, p.length ≤ maxLen) :
    ∀ seg ∈ splitSegs maxLen minLen text, seg.length ≤ maxLen := by
  intro seg hseg
  rw [splitSegs, foldl_paraStep_small maxLen minLen (paras text) [] h] at hseg
  simp only [List.nil_append] at hseg
  exact h seg hseg

/-- C2 witness: the amended bound evaluated on the concrete two-paragraph
input `c2WText` with `maxLen = 10`, `minLen = 2`. -/
theorem c2_segment_bound_amended_witness :
    (∀ p ∈ paras c2WText, p.length ≤ 10) ∧
    ∀ seg ∈ splitSegs 10 2 c2WText, seg.length ≤ 10 :=
  ⟨by decide, c2_segment_bound_amended 10 2 c2WText (by decide)⟩

set_option maxRecDepth 8000 in
/-- C3: evaluation of `splitTextIntoSegments` (with the hard-wired
configuration `maxSegmentLength = 1000`, `minSegmentLength = 50` of
content.js lines 23-24) at the failing input `c3Text`, a 1001-character
paragraph ending in `". hi"`.  The character `'h'` occurs in the input
but in no returned segment: content.js lines 68-70 push the final
accumulator only when it has reached `minSegmentLength`, so the trailing
sub-segment `". hi"` is silently dropped, contradicting the claim that no
sub-segment of a submitted unit is silently dropped by segmentation. -/
theorem c3_segmentation_drops_text :
    'h' ∈ c3Text ∧ splitTextIntoSegments c3Text = [c3Seg] ∧ 'h' ∉ c3Seg := by decide

/-- C1: a translation-client stub that always fails with a retryable
error (an in-band failure message that does not contain `'API Key'`)
causes `translateBatch` to make exactly `maxRetries + 1 = 4` attempts,
report the batch failed with the retries-exhausted error, and sleep
`min(retryDelay * 1.5^k, maxBackoff)` milliseconds before the k-th retry
(retries counted from `k = 0`; defaults `maxRetries = 3`,
`retryDelay = 2000` ms, `maxBackoff = 30000` ms). -/
theorem c1_retry_exhaustion (m : List Char)
    (h1 : strStarts failMark m = true) (h2 : strHas apiKeyMark m = false) :
    translateBatchRun (fun _ => some m) =
      ⟨Except.error exhaustMsg, maxRetriesC + 1,
       (List.range maxRetriesC).map (fun k => min (retryDelayC * (3 / 2) ^ k) maxBackoffC)⟩ := by
  have hm : m ≠ [] := by
    intro h; rw [h] at h1; exact absurd h1 (by decide)
  have hstep : attemptResult (some m) = Except.error m := by
    simp [attemptResult, hm, h1]
  have hL : translateBatchRun (fun _ => some m) =
      ⟨Except.error exhaustMsg, 4, [2000, 3000, 4500]⟩ := by
    simp [translateBatchRun, maxRetriesC, tbGo, hstep, h2, retryDelayC, maxBackoffC]
    norm_num
  rw [hL]
  simp [maxRetriesC, retryDelayC, maxBackoffC, List.range_succ]
  norm_num [min_def]

/-- C1 witness: the retry-exhaustion behaviour evaluated on the concrete
always-failing stub response `c1Msg`. -/
theorem c1_retry_exhaustion_witness :
    strStarts failMark c1Msg = true ∧ strHas apiKeyMark c1Msg = false ∧
    translateBatchRun (fun _ => some c1Msg) =
      ⟨Except.error exhaustMsg, maxRetriesC + 1,
       (List.range maxRetriesC).map (fun k => min (retryDelayC * (3 / 2) ^ k) maxBackoffC)⟩ :=
  ⟨by decide, by decide, c1_retry_exhaustion c1Msg (by decide) (by decide)⟩

/-- C6 counterexample: the claim "an error is retried if and only if it
is classified retryable (429/503/network/resource-exhausted); errors of
class Unknown are not retried" is false as stated.  A stub that returns
no usable response raises `'Invalid translation response'` — an
Unknown-class error under the spec's taxonomy — yet `translateBatch`
makes all `maxRetries + 1 = 4` attempts, i.e. it retries the error. -/
theorem c6_unknown_retried_counterexample :
    specRetryableClass none invalidRespMsg = false ∧
    (translateBatchRun (fun _ => none)).attempts = maxRetriesC + 1 := by decide

/-- C6 (amended): a batch-dispatch error is retried if and only if its
message does not contain `'API Key'` — the only classification
`translateBatch` performs (content.js line 245); Unknown-class errors
without that substring are retried like retryable ones. -/
theorem c6_retry_condition_amended (m : List Char) (h1 : strStarts failMark m = true) :
    1 < (translateBatchRun (fun _ => some m)).attempts ↔ strHas apiKeyMark m = false := by
  have hm : m ≠ [] := by
    intro h; rw [h] at h1; exact absurd h1 (by decide)
  have hstep : attemptResult (some m) = Except.error m := by
    simp [attemptResult, hm, h1]
  by_cases h2 : strHas apiKeyMark m = true
  · have hL : translateBatchRun (fun _ => some m) = ⟨Except.error m, 1, []⟩ := by
      simp [translateBatchRun, maxRetriesC, tbGo, hstep, h2]
    rw [hL]
    simp [h2]
  · have h2' : strHas apiKeyMark m = false := by
      simpa using h2
    have hL : translateBatchRun (fun _ => some m) =
        ⟨Except.error exhaustMsg, 4, [2000, 3000, 4500]⟩ := by
      simp [translateBatchRun, maxRetriesC, tbGo, hstep, h2', retryDelayC, maxBackoffC]
      norm_num
    rw [hL]
    simp [h2']

/-- C6 witness: the amended retry condition evaluated on the concrete
503-style failure message `c6Msg`. -/
theorem c6_retry_condition_amended_witness :
    strStarts failMark c6Msg = true ∧
    (1 < (translateBatchRun (fun _ => some c6Msg)).attempts ↔ strHas apiKeyMark c6Msg = false) :=
  ⟨by decide, c6_retry_condition_amended c6Msg (by decide)⟩

/-- C7 counterexample: the claim "a non-retryable failure
(authentication/credential error or malformed-request error) results in
exactly 1 attempt" is false as stated.  The malformed-response failure
`'翻译请求失败: Invalid API response format'` does not contain
`'API Key'`, so `translateBatch` retries it: 4 attempts, not 1. -/
theorem c7_malformed_retried_counterexample :
    strStarts failMark c7MalMsg = true ∧ strHas apiKeyMark c7MalMsg = false ∧
    (translateBatchRun (fun _ => some c7MalMsg)).attempts = maxRetriesC + 1 := by decide

/-- C7 (amended): only failures whose message contains `'API Key'` (the
missing/invalid-credential messages the extension itself produces)
short-circuit: exactly 1 attempt, the error itself propagated to the
caller, and no backoff sleep. -/
theorem c7_short_circuit_amended (m : List Char)
    (h1 : strStarts failMark m = true) (h2 : strHas apiKeyMark m = true) :
    translateBatchRun (fun _ => some m) = ⟨Except.error m, 1, []⟩ := by
  have hm : m ≠ [] := by
    intro h; rw [h] at h1; exact absurd h1 (by decide)
  have hstep : attemptResult (some m) = Except.error m := by
    simp [attemptResult, hm, h1]
  simp [translateBatchRun, maxRetriesC, tbGo, hstep, h2]

/-- C7 witness: the short-circuit evaluated on the concrete
missing-credential message `c7Msg`. -/
theorem c7_short_circuit_amended_witness :
    strStarts failMark c7Msg = true ∧ strHas apiKeyMark c7Msg = true ∧
    translateBatchRun (fun _ => some c7Msg) = ⟨Except.error c7Msg, 1, []⟩ :=
  ⟨by decide, by decide, c7_short_circuit_amended c7Msg (by decide) (by decide)⟩

/-- C4: for a `TokenBucket` of integer capacity `C ≥ 1` and refill rate
`R > 0`, starting full with no elapsed time: every one of the first `C`
`getToken` calls succeeds immediately and decrements the token count by
exactly 1 (tokens after `k` calls: `C - k`); the `(C+1)`-th immediate
attempt does not complete (it suspends), the sleep it computes is
`(1 - 0)/R * 1000` ms, i.e. `(1 - fractional tokens)/R` seconds; after
suspending at least `1/R` seconds the retried call succeeds, so
`getToken` never fails; and, in general, a completed single-round call
decrements the refreshed token count by exactly 1. -/
theorem c4_token_conservation (C : Nat) (R : ℚ) (hC : 1 ≤ C) (hR : 0 < R) :
    (∀ k : Nat, k ≤ C → acquireN (TB.mk C C R 0) k = some (TB.mk C ((C : ℚ) - k) R 0)) ∧
    tryOnce (TB.mk C 0 R 0) = none ∧
    waitMs (refill (TB.mk C 0 R 0) 0) = (1 - 0) / R * 1000 ∧
    (∀ e : ℚ, 1 / R ≤ e → (getTokenSteps (TB.mk C 0 R 0) [0, e]).isSome = true) ∧
    (∀ (s : TB) (e : ℚ) (s' : TB), getTokenSteps s [e] = some s' →
      s'.tokens = min s.capacity (s.tokens + e * s.fillPerSecond) - 1) := by
  have hC0 : (0 : ℚ) ≤ (C : ℚ) := Nat.cast_nonneg C
  have hC1 : (1 : ℚ) ≤ (C : ℚ) := by exact_mod_cast hC
  refine ⟨?_, ?_, ?_, ?_, ?_⟩
  · intro k hk
    induction k with
    | zero => simp [acquireN]
    | succ k ih =>
      have hk' : k ≤ C := Nat.le_of_succ_le hk
      rw [acquireN, ih hk']
      have hkq : (k : ℚ) + 1 ≤ (C : ℚ) := by exact_mod_cast hk
      have h1 : ((C : ℚ) - k) + 0 * R = (C : ℚ) - k := by ring
      have hmin : min (C : ℚ) ((C : ℚ) - k) = (C : ℚ) - k := by
        apply min_eq_right
        have : (0 : ℚ) ≤ (k : ℚ) := Nat.cast_nonneg k
        linarith
      have hge : ¬ ((C : ℚ) - (k : ℚ) < 1) := by
        push_neg
        linarith
      simp [Option.bind, tryOnce, getTokenSteps, refill, h1, hmin, hge]
      ring
  · have hmin : min (C : ℚ) (0 + 0 * R) = 0 := by
      rw [min_eq_right] <;> simp [hC0]
    simp [tryOnce, getTokenSteps, refill, hmin]
  · simp [waitMs, refill, min_eq_right hC0]
  · intro e he
    have h1 : (1 : ℚ) ≤ e * R := by
      rw [div_le_iff₀ hR] at he
      linarith
    have hmin0 : min (C : ℚ) (0 + 0 * R) = 0 := by
      rw [min_eq_right] <;> simp [hC0]
    have hge : ¬ (min (C : ℚ) (0 + e * R) < 1) := by
      push_neg
      rw [le_min_iff]
      constructor
      · exact hC1
      · linarith
    simp [getTokenSteps, refill, hmin0, hge]
    exact ⟨by omega, h1⟩
  · intro s e s' h
    by_cases hc : (refill s e).tokens < 1
    · simp [getTokenSteps, hc] at h
    · simp [getTokenSteps, hc] at h
      rw [← h]
      simp [refill]

/-- C4 witness: the acquisition behaviour at the configuration hard-wired
in background.js line 35 (`capacity 5`, `0.5 tokens per second`). -/
theorem c4_token_conservation_witness :
    (1 ≤ 5) ∧ (0 < (1 / 2 : ℚ)) ∧
    ((∀ k : Nat, k ≤ 5 → acquireN (TB.mk 5 5 (1 / 2) 0) k = some (TB.mk 5 ((5 : ℚ) - k) (1 / 2) 0)) ∧
     tryOnce (TB.mk 5 0 (1 / 2) 0) = none ∧
     waitMs (refill (TB.mk 5 0 (1 / 2) 0) 0) = (1 - 0) / (1 / 2) * 1000 ∧
     (∀ e : ℚ, 1 / (1 / 2) ≤ e → (getTokenSteps (TB.mk 5 0 (1 / 2) 0) [0, e]).isSome = true) ∧
     (∀ (s : TB) (e : ℚ) (s' : TB), getTokenSteps s [e] = some s' →
       s'.tokens = min s.capacity (s.tokens + e * s.fillPerSecond) - 1)) :=
  ⟨by norm_num, by norm_num, by
    have h := c4_token_conservation 5 (1 / 2) (by norm_num) (by norm_num)
    exact_mod_cast h⟩

/-- Helper: a completed `getToken` call leaves the token count within
`[0, capacity]` and does not change the capacity, whatever the starting
state and elapsed times were: the refreshed count is clamped by `min` and
the success branch requires at least one token before decrementing. -/
theorem getTokenSteps_bounds (es : List ℚ) : ∀ (s s' : TB), getTokenSteps s es = some s' →
    0 ≤ s'.tokens ∧ s'.tokens ≤ s'.capacity ∧ s'.capacity = s.capacity := by
  induction es with
  | nil => intro s s' h; simp [getTokenSteps] at h
  | cons e es ih =>
    intro s s' h
    by_cases hc : (refill s e).tokens < 1
    · simp only [getTokenSteps, if_pos hc] at h
      have hb := ih (refill s e) s' h
      exact ⟨hb.1, hb.2.1, by rw [hb.2.2]; rfl⟩
    · simp only [getTokenSteps, if_neg hc, Option.some.injEq] at h
      push_neg at hc
      rw [← h]
      refine ⟨by simpa using hc, ?_, rfl⟩
      have : (refill s e).tokens ≤ (refill s e).capacity := by
        simp [refill]
      simp only [refill] at this ⊢
      linarith

/-- C5: the token bucket invariant `0 ≤ tokens ≤ capacity` holds after
every sequence of completed `getToken` calls, for every starting state
satisfying it and every choice of non-negative elapsed times between the
refill rounds. -/
theorem c5_bucket_invariant (s : TB) (ess : List (List ℚ)) (s' : TB)
    (h0 : 0 ≤ s.tokens) (h1 : s.tokens ≤ s.capacity)
    (hn : ∀ es ∈ ess, ∀ e ∈ es, 0 ≤ e)
    (h : runAcquires s ess = some s') :
    0 ≤ s'.tokens ∧ s'.tokens ≤ s'.capacity := by
  induction ess generalizing s with
  | nil =>
    simp only [runAcquires, Option.some.injEq] at h
    rw [← h]
    exact ⟨h0, h1⟩
  | cons es ess ih =>
    rw [runAcquires] at h
    cases hg : getTokenSteps s es with
    | none => rw [hg] at h; cases h
    | some s1 =>
      rw [hg] at h
      have hb := getTokenSteps_bounds es s s1 hg
      exact ih s1 hb.1 hb.2.1 (fun es' he' => hn es' (List.mem_cons_of_mem _ he')) h

/-- C5 witness: the invariant after one completed acquisition from the
default full bucket (`capacity 5`, rate `1/2`). -/
theorem c5_bucket_invariant_witness :
    (0 : ℚ) ≤ 5 ∧ (5 : ℚ) ≤ 5 ∧ (∀ es ∈ [[(0 : ℚ)]], ∀ e ∈ es, 0 ≤ e) ∧
    runAcquires (TB.mk 5 5 (1 / 2) 0) [[0]] = some (TB.mk 5 4 (1 / 2) 0) ∧
    (0 : ℚ) ≤ (TB.mk (5 : ℚ) 4 (1 / 2) 0).tokens ∧
    (TB.mk (5 : ℚ) 4 (1 / 2) 0).tokens ≤ (TB.mk (5 : ℚ) 4 (1 / 2) 0).capacity :=
  ⟨by norm_num, by norm_num, by norm_num, by norm_num [runAcquires, getTokenSteps, refill],
   by
    have h := c5_bucket_invariant (TB.mk 5 5 (1 / 2) 0) [[0]] (TB.mk 5 4 (1 / 2) 0) (by norm_num)
      (by norm_num) (by norm_num) (by norm_num [runAcquires, getTokenSteps, refill])
    exact h.1,
   by
    have h := c5_bucket_invariant (TB.mk 5 5 (1 / 2) 0) [[0]] (TB.mk 5 4 (1 / 2) 0) (by norm_num)
      (by norm_num) (by norm_num) (by norm_num [runAcquires, getTokenSteps, refill])
    exact h.2⟩

/-- Helper: one `executeRequest` invocation makes at most
`retryDelays.length + 1` dispatch attempts, whatever the client
responses. -/
theorem execGo_attempts_le (stub : Nat → Except BgError (List Char)) :
    ∀ (ds : List ℚ) (att : Nat), (execGo stub ds att).nextAtt ≤ att + ds.length + 1 := by
  intro ds
  induction ds with
  | nil => intro att; cases h : stub att <;> simp [execGo, h]
  | cons d ds ih =>
    intro att
    cases h : stub att with
    | ok t => simp [execGo, h]
    | error e =>
      by_cases hr : shouldRetry e = true
      · simp only [execGo, h, hr, if_pos]
        have := ih (att + 1)
        simp only [List.length_cons]
        omega
      · simp [execGo, h, hr]

/-- Helper: against a client that always fails with HTTP 429,
`executeRequest` exhausts its four backoff delays, makes five attempts,
and rethrows the 429 error. -/
theorem executeRequest_429 (att : Nat) :
    executeRequestRun stub429 att =
      ⟨Except.error ⟨some 429, toChars "rate limited"⟩, att + 5, retryDelaysB⟩ := by
  simp [executeRequestRun, retryDelaysB, execGo, stub429, shouldRetry]

/-- Helper: under constant 429 responses, every iteration of the
`processQueue` drain loop leaves the queued request in place (the
`continue` at background.js line 64 does not shift the queue) and adds
five more dispatch attempts. -/
theorem drain_429_keeps_queue : ∀ n : Nat, drainN stub429 n ([0], 0) = ([0], 5 * n) := by
  intro n
  induction n with
  | zero => rfl
  | succ n ih =>
    rw [drainN, ih]
    simp [drainIter, executeRequest_429]
    omega

/-- C8 counterexample: the claim "the number of dispatch attempts for a
queued request is bounded by the maximum retry count plus one; once
retries are exceeded the request transitions to Failed and is removed
from the queue, in particular under repeated HTTP 429 responses" is
false as stated: after only two drain-loop iterations against an
always-429 client the request has been dispatched 10 times — more than
`retryDelays.length + 1 = 5` — and is still at the head of the queue. -/
theorem c8_429_redispatch_counterexample :
    drainN stub429 2 ([0], 0) = ([0], 10) ∧ retryDelaysB.length + 1 < 10 := by decide

/-- C8 (amended): each single `executeRequest` invocation makes at most
`retryDelays.length + 1 = 5` attempts, but the drain loop redispatches a
request that keeps failing with HTTP 429 without ever removing it or
marking it failed, so its total dispatch attempts grow without bound
(`5 * n` after `n` drain iterations, with the request still queued). -/
theorem c8_attempts_bounded_per_call_drain_unbounded :
    (∀ (stub : Nat → Except BgError (List Char)) (att : Nat),
        (executeRequestRun stub att).nextAtt ≤ att + retryDelaysB.length + 1) ∧
    (∀ n : Nat, drainN stub429 n ([0], 0) = ([0], 5 * n)) :=
  ⟨fun stub att => execGo_attempts_le stub retryDelaysB att, drain_429_keeps_queue⟩

/-- Helper: splitting a newline-free string on `'\n'` returns it
whole. -/
theorem splitNL_no_newline (o : List Char) (h : '\n' ∉ o) : splitNL o = [o] := by
  induction o with
  | nil => rfl
  | cons c cs ih =>
    have hc : ¬ (c = '\n') := fun hh => h (hh ▸ List.mem_cons_self c cs)
    have hcs : '\n' ∉ cs := fun hh => h (List.mem_cons_of_mem c hh)
    rw [splitNL, if_neg hc, ih hcs]

/-- Helper: splitting on `'\n'` peels a leading newline-free block. -/
theorem splitNL_append (o t : List Char) (h : '\n' ∉ o) :
    splitNL (o ++ '\n' :: t) = o :: splitNL t := by
  induction o with
  | nil => simp [splitNL]
  | cons c cs ih =>
    have hc : ¬ (c = '\n') := fun hh => h (hh ▸ List.mem_cons_self c cs)
    have hcs : '\n' ∉ cs := fun hh => h (List.mem_cons_of_mem c hh)
    simp only [List.cons_append, splitNL, if_neg hc]
    rw [show cs.append ('\n' :: t) = cs ++ '\n' :: t from rfl, ih hcs]

/-- Helper: `split('\n')` inverts `join('\n')` on a non-empty list of
newline-free strings. -/
theorem splitNL_joinNL : ∀ (os : List (List Char)), os ≠ [] →
    (∀ o ∈ os, '\n' ∉ o) → splitNL (joinNL os) = os := by
  intro os
  induction os with
  | nil => intro h; exact absurd rfl h
  | cons o os ih =>
    intro _ h
    have ho : '\n' ∉ o := h o (List.mem_cons_self o os)
    have hrest : ∀ q ∈ os, '\n' ∉ q := fun q hq => h q (List.mem_cons_of_mem o hq)
    cases os with
    | nil => rw [joinNL]; exact splitNL_no_newline o ho
    | cons o2 os2 =>
      have ihx := ih (fun hh => List.noConfusion hh) hrest
      rw [joinNL, splitNL_append o _ ho, ihx]

/-- Helper: when the translation array holds, from position `idx` on,
exactly one non-empty entry per remaining unit (each with non-blank
text), the `translateNodes` assignment walks them in lockstep. -/
theorem assignGo_drop : ∀ (ts os arr : List (List Char)) (idx : Nat),
    (∀ t ∈ ts, trimStr t ≠ []) → (∀ o ∈ os, o ≠ []) → os.length = ts.length →
    arr.drop idx = os → assignGo arr ts idx = os := by
  intro ts
  induction ts with
  | nil =>
    intro os arr idx _ _ hlen _
    rw [List.length_nil, List.length_eq_zero] at hlen
    rw [hlen]
    rfl
  | cons t ts ih =>
    intro os arr idx hts hos hlen hdrop
    cases os with
    | nil => simp at hlen
    | cons o os' =>
      have hget : arr.get? idx = some o := by
        have h0 : (arr.drop idx).get? 0 = some o := by rw [hdrop]; rfl
        rw [List.get?_drop] at h0
        simpa using h0
      have ho : o ≠ [] := hos o (List.mem_cons_self o os')
      have ht : trimStr t ≠ [] := hts t (List.mem_cons_self t ts)
      rw [assignGo, if_neg ht, hget]
      simp only [if_neg ho]
      have hdrop' : arr.drop (idx + 1) = os' := by
        have : arr.drop (idx + 1) = (arr.drop idx).drop 1 := by
          rw [List.drop_drop]
        rw [this, hdrop]
        rfl
      rw [ih os' arr (idx + 1) (fun q hq => hts q (List.mem_cons_of_mem t hq))
        (fun q hq => hos q (List.mem_cons_of_mem o hq)) (by simpa using hlen) hdrop']

/-- C9 counterexample: the claim "if a successful translate call returns
the same count of newline-joined outputs then `result[ui] =
translatedOutputs[i]` for all i" is false as stated.  For the two
distinct non-empty units `["ab", "cd"]` and the equal-count outputs
`["x", ""]`, the empty output line is falsy, so `translateNodes` leaves
the second unit's text unchanged (`"cd"`, not `""`): the assignment index
only advances past truthy entries (content.js lines 505-508). -/
theorem c9_empty_output_counterexample :
    demuxRoundTrip c9Ts c9OsBad = [toChars "x", toChars "cd"] ∧
    [toChars "x", toChars "cd"] ≠ c9OsBad ∧
    c9OsBad.length = c9Ts.length ∧ c9Ts.Nodup ∧
    trimStr (toChars "ab") ≠ [] ∧ trimStr (toChars "cd") ≠ [] := by decide

/-- C9 (amended): for units with non-blank texts and a successful
translate call returning one NON-EMPTY newline-free output per unit, the
newline join followed by the newline split and the index-ordered
reassignment is an order-preserving round-trip: unit i receives output
i. -/
theorem c9_round_trip_amended (ts os : List (List Char))
    (hts : ∀ t ∈ ts, trimStr t ≠ [])
    (hos : ∀ o ∈ os, o ≠ [] ∧ '\n' ∉ o)
    (hlen : os.length = ts.length) :
    demuxRoundTrip ts os = os := by
  cases os with
  | nil =>
    rw [List.length_nil] at hlen
    have : ts = [] := by
      cases ts with
      | nil => rfl
      | cons t ts => simp at hlen
    rw [this]
    rfl
  | cons o os' =>
    have hsplit : splitNL (joinNL (o :: os')) = o :: os' :=
      splitNL_joinNL (o :: os') (fun hh => List.noConfusion hh) (fun q hq => (hos q hq).2)
    rw [demuxRoundTrip, hsplit]
    exact assignGo_drop ts (o :: os') (o :: os') 0 hts (fun q hq => (hos q hq).1) hlen rfl

/-- C9 witness: the amended round-trip on the concrete batch
`["ab", "cd"]` with outputs `["x", "y"]`. -/
theorem c9_round_trip_amended_witness :
    (∀ t ∈ c9Ts, trimStr t ≠ []) ∧ (∀ o ∈ c9OsGood, o ≠ [] ∧ '\n' ∉ o) ∧
    c9OsGood.length = c9Ts.length ∧ demuxRoundTrip c9Ts c9OsGood = c9OsGood :=
  ⟨by decide, by decide, by decide,
   c9_round_trip_amended c9Ts c9OsGood (by decide) (by decide) (by decide)⟩

/-- Helper: a string starts with any of its own prefixes. -/
theorem strStarts_append : ∀ (p s : List Char), strStarts p (p ++ s) = true := by
  intro p
  induction p with
  | nil => intro s; rfl
  | cons c cs ih => intro s; simp [strStarts, ih]

/-- C10: `makeRequest` never rejects — for every API key and every fetch
outcome (missing key, thrown network/parse error, non-ok HTTP response,
or malformed body) it returns a success-shaped `translatedText`, and
every failure is encoded in-band as a string starting with
`'翻译请求失败: '`; that string is exactly what the downstream
classifier (`attemptResult`, modelling content.js line 231) treats as a
failure, so callers distinguish failure from success solely by the
prefix.  Either the returned text carries the failure prefix and the
content-side check classifies it as an error, or the API key was present,
the `try` block succeeded, and the candidate text is returned
verbatim. -/
theorem c10_makeRequest_inband (apiKey : List Char) (fo : FetchRes) :
    (strStarts failMarkColon (makeRequest apiKey fo) = true ∧
     attemptResult (some (makeRequest apiKey fo)) = Except.error (makeRequest apiKey fo)) ∨
    (apiKey ≠ [] ∧ ∃ t, makeRequestTry fo = Except.ok t ∧ makeRequest apiKey fo = t) := by
  by_cases hk : apiKey = []
  · left
    rw [makeRequest, if_pos hk]
    exact ⟨by decide, by decide⟩
  · cases hmt : makeRequestTry fo with
    | ok t =>
      right
      refine ⟨hk, t, rfl, ?_⟩
      rw [makeRequest, if_neg hk, hmt]
    | error m =>
      left
      have hres : makeRequest apiKey fo = failMarkColon ++ m := by
        rw [makeRequest, if_neg hk, hmt]
      rw [hres]
      have hne : failMarkColon ++ m ≠ [] := by
        intro hh
        have := List.append_eq_nil.mp hh
        exact absurd this.1 (by decide)
      have hsplit : failMarkColon ++ m = failMark ++ (toChars ": " ++ m) := by
        rw [← List.append_assoc]
        have : failMarkColon = failMark ++ toChars ": " := by decide
        rw [this]
      have hfm : strStarts failMark (failMarkColon ++ m) = true := by
        rw [hsplit]
        exact strStarts_append failMark _
      refine ⟨strStarts_append failMarkColon m, ?_⟩
      simp [attemptResult, hne, hfm]
